import Mathlib

/-
Verification of the payments-engine repository: a shallow embedding of
src/client/client_account.rs, src/storage.rs, src/transaction.rs and
src/engine/payments_engine.rs, followed by theorems settling the claims.

Modelling conventions:
- Amount (rust_decimal::Decimal) is modelled as the rationals: the program
  only adds, subtracts and compares amounts, and Decimal arithmetic on
  these operations is exact decimal arithmetic, which embeds in the
  rationals faithfully.
- ClientId and TransactionId (unsigned integers) are modelled as Nat.
- HashMap is modelled as an association list with insert-or-replace
  semantics; HashSet as a duplicate-free list. No claim depends on
  iteration order.
- Rust methods taking &mut self and returning Result are modelled as pure
  functions returning either an Except value (account level, where an
  early error leaves the account untouched) or a pair of the new state and
  an optional error (engine level, where a handler can both mutate and
  report an error, as handle_deposit does when entry/or_insert has already
  created the account before ClientAccount::deposit fails).
-/

abbrev ClientId : Type := Nat

abbrev TransactionId : Type := Nat

abbrev Amount : Type := Rat

/-- Errors of src/client/error.rs (ClientAccountError). -/
inductive ClientAccountError where
  | NegativeAmount
  | InsufficientBalance
  | Locked
deriving DecidableEq, Repr

deriving instance DecidableEq for Except

/-- The account record of src/client/client_account.rs. -/
structure ClientAccount where
  available : Amount
  held : Amount
  total : Amount
  locked : Bool
deriving DecidableEq, Repr

/-- ClientAccount::new. -/
def ClientAccount.new : ClientAccount :=
  { available := 0, held := 0, total := 0, locked := false }

/-- ClientAccount::deposit: locked check, then negative check, then
available += amount; total += amount. -/
def ClientAccount.deposit (c : ClientAccount) (amount : Amount) :
    Except ClientAccountError ClientAccount :=
  if c.locked then .error .Locked
  else if amount < 0 then .error .NegativeAmount
  else .ok { c with available := c.available + amount, total := c.total + amount }

/-- ClientAccount::withdrawal: locked check, negative check, then the
mutation runs only under the strict comparison available > amount
(the source comment says it means sufficient or equal, but the code
tests strictly greater); otherwise InsufficientBalance. -/
def ClientAccount.withdrawal (c : ClientAccount) (amount : Amount) :
    Except ClientAccountError ClientAccount :=
  if c.locked then .error .Locked
  else if amount < 0 then .error .NegativeAmount
  else if c.available > amount then
    .ok { c with available := c.available - amount, total := c.total - amount }
  else .error .InsufficientBalance

/-- ClientAccount::dispute: locked check, then available -= amount;
held += amount. -/
def ClientAccount.dispute (c : ClientAccount) (amount : Amount) :
    Except ClientAccountError ClientAccount :=
  if c.locked then .error .Locked
  else .ok { c with available := c.available - amount, held := c.held + amount }

/-- ClientAccount::resolve: locked check, then held -= amount;
available += amount. -/
def ClientAccount.resolve (c : ClientAccount) (amount : Amount) :
    Except ClientAccountError ClientAccount :=
  if c.locked then .error .Locked
  else .ok { c with held := c.held - amount, available := c.available + amount }

/-- ClientAccount::chargeback: no locked check; held -= amount;
total -= amount; locked := true. -/
def ClientAccount.chargeback (c : ClientAccount) (amount : Amount) :
    Except ClientAccountError ClientAccount :=
  .ok { c with held := c.held - amount, total := c.total - amount, locked := true }

/-- Insert-or-replace on an association list keyed by Nat: the model of
HashMap::insert (and of entry().or_insert followed by mutation). -/
def alistInsert {α : Type} (k : Nat) (v : α) : List (Nat × α) → List (Nat × α)
  | [] => [(k, v)]
  | (q, w) :: rest => if k = q then (k, v) :: rest else (q, w) :: alistInsert k v rest

/-- Lookup on an association list keyed by Nat: the model of HashMap::get. -/
def alistGet {α : Type} (k : Nat) : List (Nat × α) → Option α
  | [] => none
  | (q, w) :: rest => if k = q then some w else alistGet k rest

/-- The transaction store of src/storage.rs: TransactionId to
(owning ClientId, Amount). -/
structure TransactionsDatabase where
  transactions : List (TransactionId × (ClientId × Amount))
deriving DecidableEq, Repr

/-- TransactionsDatabase::new. -/
def TransactionsDatabase.new : TransactionsDatabase := ⟨[]⟩

/-- TransactionsDatabase::insert: a bare HashMap::insert, replacing any
record already stored under the id; it has no failure path. -/
def TransactionsDatabase.insert (db : TransactionsDatabase)
    (transaction_id : TransactionId) (t : ClientId × Amount) : TransactionsDatabase :=
  ⟨alistInsert transaction_id t db.transactions⟩

/-- TransactionsDatabase::get. -/
def TransactionsDatabase.get (db : TransactionsDatabase)
    (transaction_id : TransactionId) : Option (ClientId × Amount) :=
  alistGet transaction_id db.transactions

/-- TransactionsDatabase::contains_key. -/
def TransactionsDatabase.contains_key (db : TransactionsDatabase)
    (transaction_id : TransactionId) : Bool :=
  (alistGet transaction_id db.transactions).isSome

/-- The transaction kind enum of src/transaction.rs (named Type in Rust;
Type is a Lean keyword, so TxType here). -/
inductive TxType where
  | Deposit
  | Withdrawal
  | Dispute
  | Resolve
  | Chargeback
deriving DecidableEq, Repr

/-- The decoded transaction record of src/transaction.rs. -/
structure Transaction where
  t_type : TxType
  t_client_id : ClientId
  transaction_id : TransactionId
  amount : Option Amount
deriving DecidableEq, Repr

/-- The deserializer de_decimal_non_negative of src/transaction.rs: it
rejects a negative amount and otherwise passes the decoded value through
unchanged (no rounding is applied). -/
def de_decimal_non_negative (opt : Option Amount) : Except String (Option Amount) :=
  match opt with
  | some v => if v < 0 then .error "amount must be non-negative" else .ok (some v)
  | none => .ok none

/-- Modelled from the spec: the rounding to exactly 4 fractional digits
that section 6 of the spec says is applied to an amount with more than 4
fractional digits before any arithmetic. The code under src/ applies no
such rounding, so this definition follows the words of the spec (round to
the nearest multiple of 1/10000, halves up, matching the example
10.55557 to 10.5556); it exists to be compared with
de_decimal_non_negative. -/
def spec_round_dp4 (v : Amount) : Amount :=
  ((Int.floor (v * 10000 + 1 / 2) : Int) : Rat) / 10000

/-- The engine error enum of src/engine/error.rs (InvalidLeger spelled as
in the source). -/
inductive EngineError where
  | ClientNotFound
  | ClientAccountError (err : ClientAccountError)
  | InvalidLeger (tid : TransactionId)
  | TransactionNotFound (tid : TransactionId)
  | TransactionAlreadyDisputed (tid : TransactionId)
  | TransactionNotDisputed (tid : TransactionId)
  | NotClientOwnedTransaction (tid : TransactionId) (cid : ClientId)
  | TransactionAlreadyExists
  | WriteBuffer
deriving DecidableEq, Repr

/-- HashSet::insert on the dispute set. -/
def disputesInsert (tid : TransactionId) (l : List TransactionId) : List TransactionId :=
  if l.contains tid then l else tid :: l

/-- HashSet::remove on the dispute set. -/
def disputesRemove (tid : TransactionId) (l : List TransactionId) : List TransactionId :=
  l.filter (fun x => x != tid)

/-- The engine state of src/engine/payments_engine.rs: client accounts,
transaction store and dispute set. -/
structure PaymentsEngine where
  clients : List (ClientId × ClientAccount)
  transactions_database : TransactionsDatabase
  disputes : List TransactionId
deriving DecidableEq, Repr

/-- PaymentsEngine::new. -/
def PaymentsEngine.new : PaymentsEngine :=
  { clients := [], transactions_database := TransactionsDatabase.new, disputes := [] }

/-- PaymentsEngine::handle_transaction_without_amount: looks the client up
first (ClientNotFound), then the stored transaction (TransactionNotFound),
then checks ownership (NotClientOwnedTransaction), then runs the account
action; on any error the state is returned unchanged. -/
def PaymentsEngine.handle_transaction_without_amount (e : PaymentsEngine)
    (t_client_id : ClientId) (transaction_id : TransactionId)
    (action : ClientAccount → Amount → Except ClientAccountError ClientAccount) :
    PaymentsEngine × Option EngineError :=
  match alistGet t_client_id e.clients with
  | none => (e, some .ClientNotFound)
  | some client =>
    match e.transactions_database.get transaction_id with
    | none => (e, some (.TransactionNotFound transaction_id))
    | some (client_id_expected, amount) =>
      if t_client_id = client_id_expected then
        match action client amount with
        | .ok c2 => ({ e with clients := alistInsert t_client_id c2 e.clients }, none)
        | .error err => (e, some (.ClientAccountError err))
      else (e, some (.NotClientOwnedTransaction transaction_id t_client_id))

/-- PaymentsEngine::handle_deposit. The entry().or_insert call creates the
account before ClientAccount::deposit runs, so when deposit fails for a
previously unknown client the freshly created default account stays in the
map; the store insertion happens only after a successful deposit. -/
def PaymentsEngine.handle_deposit (e : PaymentsEngine) (t : Transaction) :
    PaymentsEngine × Option EngineError :=
  if e.transactions_database.contains_key t.transaction_id then
    (e, some .TransactionAlreadyExists)
  else
    match t.amount with
    | none => (e, some (.InvalidLeger t.transaction_id))
    | some transaction_value =>
      let client := (alistGet t.t_client_id e.clients).getD ClientAccount.new
      match client.deposit transaction_value with
      | .ok c2 =>
        ({ e with
            clients := alistInsert t.t_client_id c2 e.clients,
            transactions_database :=
              e.transactions_database.insert t.transaction_id
                (t.t_client_id, transaction_value) }, none)
      | .error err =>
        ({ e with clients := alistInsert t.t_client_id client e.clients },
          some (.ClientAccountError err))

/-- PaymentsEngine::handle_withdrawals: like handle_deposit (including the
account creation by entry().or_insert before the fallible withdrawal) but
the transaction is never recorded in the store. -/
def PaymentsEngine.handle_withdrawals (e : PaymentsEngine) (t : Transaction) :
    PaymentsEngine × Option EngineError :=
  if e.transactions_database.contains_key t.transaction_id then
    (e, some .TransactionAlreadyExists)
  else
    match t.amount with
    | none => (e, some (.InvalidLeger t.transaction_id))
    | some transaction_value =>
      let client := (alistGet t.t_client_id e.clients).getD ClientAccount.new
      match client.withdrawal transaction_value with
      | .ok c2 =>
        ({ e with clients := alistInsert t.t_client_id c2 e.clients }, none)
      | .error err =>
        ({ e with clients := alistInsert t.t_client_id client e.clients },
          some (.ClientAccountError err))

/-- PaymentsEngine::handle_dispute. -/
def PaymentsEngine.handle_dispute (e : PaymentsEngine) (t : Transaction) :
    PaymentsEngine × Option EngineError :=
  if e.disputes.contains t.transaction_id then
    (e, some (.TransactionAlreadyDisputed t.transaction_id))
  else
    match e.handle_transaction_without_amount t.t_client_id t.transaction_id
        (fun c a => c.dispute a) with
    | (e2, none) => ({ e2 with disputes := disputesInsert t.transaction_id e2.disputes }, none)
    | (e2, some err) => (e2, some err)

/-- PaymentsEngine::handle_resolve. -/
def PaymentsEngine.handle_resolve (e : PaymentsEngine) (t : Transaction) :
    PaymentsEngine × Option EngineError :=
  if ! e.disputes.contains t.transaction_id then
    (e, some (.TransactionNotDisputed t.transaction_id))
  else
    match e.handle_transaction_without_amount t.t_client_id t.transaction_id
        (fun c a => c.resolve a) with
    | (e2, none) => ({ e2 with disputes := disputesRemove t.transaction_id e2.disputes }, none)
    | (e2, some err) => (e2, some err)

/-- PaymentsEngine::handle_chargeback. -/
def PaymentsEngine.handle_chargeback (e : PaymentsEngine) (t : Transaction) :
    PaymentsEngine × Option EngineError :=
  if ! e.disputes.contains t.transaction_id then
    (e, some (.TransactionNotDisputed t.transaction_id))
  else
    match e.handle_transaction_without_amount t.t_client_id t.transaction_id
        (fun c a => c.chargeback a) with
    | (e2, none) => ({ e2 with disputes := disputesRemove t.transaction_id e2.disputes }, none)
    | (e2, some err) => (e2, some err)

/-- PaymentsEngine::handle_transaction: dispatch on the transaction kind. -/
def PaymentsEngine.handle_transaction (e : PaymentsEngine) (t : Transaction) :
    PaymentsEngine × Option EngineError :=
  match t.t_type with
  | .Deposit => e.handle_deposit t
  | .Withdrawal => e.handle_withdrawals t
  | .Dispute => e.handle_dispute t
  | .Resolve => e.handle_resolve t
  | .Chargeback => e.handle_chargeback t

/-- Running a stream of transactions from the fresh engine, as the driver
loop in src/main.rs does: each rejection is logged and dropped, the state
returned by the handler carries on. -/
def runEngine (ts : List Transaction) : PaymentsEngine :=
  ts.foldl (fun e t => (e.handle_transaction t).1) PaymentsEngine.new

/-- One of the five account operations, used to describe the accounts
reachable through ClientAccount's interface. -/
inductive AccountOp where
  | deposit
  | withdrawal
  | dispute
  | resolve
  | chargeback
deriving DecidableEq, Repr

/-- Apply the named ClientAccount method. -/
def ClientAccount.apply (c : ClientAccount) (op : AccountOp) (amount : Amount) :
    Except ClientAccountError ClientAccount :=
  match op with
  | .deposit => c.deposit amount
  | .withdrawal => c.withdrawal amount
  | .dispute => c.dispute amount
  | .resolve => c.resolve amount
  | .chargeback => c.chargeback amount

/-- One step of account evolution: a successful operation commits its
mutation, a failed one leaves the account as it was. -/
def applyAccountOp (c : ClientAccount) (p : AccountOp × Amount) : ClientAccount :=
  match c.apply p.1 p.2 with
  | .ok c2 => c2
  | .error _ => c

/-- The account reached from a fresh account by a sequence of operations. -/
def runAccountOps (ops : List (AccountOp × Amount)) : ClientAccount :=
  ops.foldl applyAccountOp ClientAccount.new

lemma applyAccountOp_balance (c : ClientAccount) (p : AccountOp × Amount)
    (h : c.total = c.available + c.held) :
    (applyAccountOp c p).total = (applyAccountOp c p).available + (applyAccountOp c p).held := by
  rcases p with ⟨op, a⟩
  cases op <;>
    simp only [applyAccountOp, ClientAccount.apply, ClientAccount.deposit,
      ClientAccount.withdrawal, ClientAccount.dispute, ClientAccount.resolve,
      ClientAccount.chargeback]
  case chargeback => rw [h]; ring
  all_goals split_ifs <;> simp_all <;> ring

lemma foldl_applyAccountOp_balance (ops : List (AccountOp × Amount)) (c : ClientAccount)
    (h : c.total = c.available + c.held) :
    (ops.foldl applyAccountOp c).total =
      (ops.foldl applyAccountOp c).available + (ops.foldl applyAccountOp c).held := by
  induction ops generalizing c with
  | nil => simpa using h
  | cons p rest ih =>
    simpa using ih (applyAccountOp c p) (applyAccountOp_balance c p h)

lemma alistGet_insert_self {α : Type} (k : Nat) (v : α) (l : List (Nat × α)) :
    alistGet k (alistInsert k v l) = some v := by
  induction l with
  | nil => simp [alistInsert, alistGet]
  | cons hd tl ih =>
    rcases hd with ⟨q, w⟩
    by_cases hkq : k = q <;> simp [alistInsert, alistGet, hkq, ih]

lemma alistGet_insert_ne {α : Type} (j k : Nat) (v : α) (l : List (Nat × α))
    (h : j ≠ k) : alistGet j (alistInsert k v l) = alistGet j l := by
  induction l with
  | nil => simp [alistInsert, alistGet, h]
  | cons hd tl ih =>
    rcases hd with ⟨q, w⟩
    by_cases hkq : k = q
    · subst hkq
      simp [alistInsert, alistGet, h]
    · by_cases hjq : j = q <;> simp [alistInsert, alistGet, hkq, hjq, ih]

lemma alistGet_insert {α : Type} (j k : Nat) (v : α) (l : List (Nat × α)) :
    alistGet j (alistInsert k v l) = if j = k then some v else alistGet j l := by
  by_cases h : j = k
  · subst h; simp [alistGet_insert_self]
  · simp [h, alistGet_insert_ne j k v l h]

lemma mem_disputesInsert (x y : TransactionId) (l : List TransactionId) :
    x ∈ disputesInsert y l ↔ x = y ∨ x ∈ l := by
  unfold disputesInsert
  split <;> rename_i hc <;> simp_all

lemma mem_disputesRemove (x y : TransactionId) (l : List TransactionId) :
    x ∈ disputesRemove y l ↔ x ∈ l ∧ x ≠ y := by
  simp [disputesRemove, List.mem_filter]

lemma deposit_ok_locked {c c2 : ClientAccount} {a : Amount}
    (h : c.deposit a = .ok c2) : c.locked = false ∧ c2.locked = false := by
  unfold ClientAccount.deposit at h
  split_ifs at h with h1 h2
  all_goals first
    | exact Except.noConfusion h
    | (injection h with h3
       subst h3
       have hl : c.locked = false := by simpa using h1
       exact ⟨hl, hl⟩)

lemma withdrawal_ok_locked {c c2 : ClientAccount} {a : Amount}
    (h : c.withdrawal a = .ok c2) : c.locked = false ∧ c2.locked = false := by
  unfold ClientAccount.withdrawal at h
  split_ifs at h with h1 h2 h3
  all_goals first
    | exact Except.noConfusion h
    | (injection h with h4
       subst h4
       have hl : c.locked = false := by simpa using h1
       exact ⟨hl, hl⟩)

lemma dispute_ok_locked {c c2 : ClientAccount} {a : Amount}
    (h : c.dispute a = .ok c2) : c.locked = false ∧ c2.locked = false := by
  unfold ClientAccount.dispute at h
  split_ifs at h with h1
  all_goals first
    | exact Except.noConfusion h
    | (injection h with h2
       subst h2
       have hl : c.locked = false := by simpa using h1
       exact ⟨hl, hl⟩)

lemma resolve_ok_locked {c c2 : ClientAccount} {a : Amount}
    (h : c.resolve a = .ok c2) : c.locked = false ∧ c2.locked = false := by
  unfold ClientAccount.resolve at h
  split_ifs at h with h1
  all_goals first
    | exact Except.noConfusion h
    | (injection h with h2
       subst h2
       have hl : c.locked = false := by simpa using h1
       exact ⟨hl, hl⟩)

lemma chargeback_ok_locked {c c2 : ClientAccount} {a : Amount}
    (h : c.chargeback a = .ok c2) : c2.locked = true := by
  unfold ClientAccount.chargeback at h
  injection h with h2
  subst h2
  rfl

lemma deposit_ok_nonneg {c c2 : ClientAccount} {a : Amount}
    (h : c.deposit a = .ok c2) : 0 ≤ a := by
  unfold ClientAccount.deposit at h
  split_ifs at h with h1 h2
  all_goals first
    | exact Except.noConfusion h
    | exact le_of_not_lt h2

/-- Full characterization of handle_transaction_without_amount: it either
fails and returns the engine unchanged, or succeeds having updated exactly
the requesting client's account through the action. -/
lemma htwa_spec (e : PaymentsEngine) (cid : ClientId) (tid : TransactionId)
    (f : ClientAccount → Amount → Except ClientAccountError ClientAccount) :
    (∃ err, e.handle_transaction_without_amount cid tid f = (e, some err)) ∨
    (∃ c amt c2, alistGet cid e.clients = some c ∧
      e.transactions_database.get tid = some (cid, amt) ∧ f c amt = .ok c2 ∧
      e.handle_transaction_without_amount cid tid f =
        ({ e with clients := alistInsert cid c2 e.clients }, none)) := by
  unfold PaymentsEngine.handle_transaction_without_amount
  cases hget : alistGet cid e.clients with
  | none =>
    simp only [hget]
    exact Or.inl ⟨_, rfl⟩
  | some client =>
    simp only [hget]
    cases hdb : e.transactions_database.get tid with
    | none =>
      simp only [hdb]
      exact Or.inl ⟨_, rfl⟩
    | some p =>
      rcases p with ⟨owner, amt⟩
      simp only [hdb]
      by_cases hc : cid = owner
      · subst hc
        rw [if_pos rfl]
        cases hact : f client amt with
        | ok c2 =>
          simp only [hact]
          exact Or.inr ⟨client, amt, c2, rfl, rfl, hact, rfl⟩
        | error err =>
          simp only [hact]
          exact Or.inl ⟨_, rfl⟩
      · rw [if_neg hc]
        exact Or.inl ⟨_, rfl⟩

lemma handle_dispute_err (e : PaymentsEngine) (t : Transaction)
    (h : ((e.handle_dispute t).2).isSome = true) : (e.handle_dispute t).1 = e := by
  unfold PaymentsEngine.handle_dispute at h ⊢
  by_cases hc : e.disputes.contains t.transaction_id = true
  · simp only [hc, if_true]
  · simp only [hc, if_false] at h ⊢
    rcases htwa_spec e t.t_client_id t.transaction_id (fun c a => c.dispute a) with
      ⟨err, heq⟩ | ⟨c, amt, c2, _, _, _, heq⟩ <;> rw [heq] at h ⊢ <;> simp_all

lemma handle_resolve_err (e : PaymentsEngine) (t : Transaction)
    (h : ((e.handle_resolve t).2).isSome = true) : (e.handle_resolve t).1 = e := by
  unfold PaymentsEngine.handle_resolve at h ⊢
  by_cases hc : e.disputes.contains t.transaction_id = true
  · simp only [hc, Bool.not_true, if_false] at h ⊢
    rcases htwa_spec e t.t_client_id t.transaction_id (fun c a => c.resolve a) with
      ⟨err, heq⟩ | ⟨c, amt, c2, _, _, _, heq⟩ <;> rw [heq] at h ⊢ <;> simp_all
  · simp only [Bool.eq_false_iff.mpr hc] at h ⊢
    simp

lemma handle_chargeback_err (e : PaymentsEngine) (t : Transaction)
    (h : ((e.handle_chargeback t).2).isSome = true) : (e.handle_chargeback t).1 = e := by
  unfold PaymentsEngine.handle_chargeback at h ⊢
  by_cases hc : e.disputes.contains t.transaction_id = true
  · simp only [hc, Bool.not_true, if_false] at h ⊢
    rcases htwa_spec e t.t_client_id t.transaction_id (fun c a => c.chargeback a) with
      ⟨err, heq⟩ | ⟨c, amt, c2, _, _, _, heq⟩ <;> rw [heq] at h ⊢ <;> simp_all
  · simp only [Bool.eq_false_iff.mpr hc] at h ⊢
    simp

/-- Full characterization of handle_deposit: duplicate-id rejection,
missing-amount rejection, committed deposit (account updated and record
stored), or account-level rejection, which still leaves behind the
account freshly created by entry().or_insert. -/
lemma handle_deposit_spec (e : PaymentsEngine) (t : Transaction) :
    (e.transactions_database.contains_key t.transaction_id = true ∧
      e.handle_deposit t = (e, some .TransactionAlreadyExists)) ∨
    (t.amount = none ∧ e.transactions_database.contains_key t.transaction_id = false ∧
      e.handle_deposit t = (e, some (.InvalidLeger t.transaction_id))) ∨
    (∃ v c2, t.amount = some v ∧
      e.transactions_database.contains_key t.transaction_id = false ∧
      ((alistGet t.t_client_id e.clients).getD ClientAccount.new).deposit v = .ok c2 ∧
      e.handle_deposit t =
        ({ e with
            clients := alistInsert t.t_client_id c2 e.clients,
            transactions_database :=
              e.transactions_database.insert t.transaction_id (t.t_client_id, v) }, none)) ∨
    (∃ v err, t.amount = some v ∧
      e.transactions_database.contains_key t.transaction_id = false ∧
      ((alistGet t.t_client_id e.clients).getD ClientAccount.new).deposit v = .error err ∧
      e.handle_deposit t =
        ({ e with
            clients := alistInsert t.t_client_id
              ((alistGet t.t_client_id e.clients).getD ClientAccount.new) e.clients },
          some (.ClientAccountError err))) := by
  unfold PaymentsEngine.handle_deposit
  by_cases hk : e.transactions_database.contains_key t.transaction_id = true
  · rw [if_pos hk]
    exact Or.inl ⟨hk, rfl⟩
  · rw [if_neg hk]
    cases ham : t.amount with
    | none => exact Or.inr (Or.inl ⟨rfl, by simpa using hk, rfl⟩)
    | some v =>
      cases hdep : ((alistGet t.t_client_id e.clients).getD ClientAccount.new).deposit v with
      | ok c2 =>
        refine Or.inr (Or.inr (Or.inl ⟨v, c2, rfl, by simpa using hk, hdep, ?_⟩))
        simp [hdep]
      | error err =>
        refine Or.inr (Or.inr (Or.inr ⟨v, err, rfl, by simpa using hk, hdep, ?_⟩))
        simp [hdep]

/-- Full characterization of handle_withdrawals: like handle_deposit but
the store is never written. -/
lemma handle_withdrawals_spec (e : PaymentsEngine) (t : Transaction) :
    (e.transactions_database.contains_key t.transaction_id = true ∧
      e.handle_withdrawals t = (e, some .TransactionAlreadyExists)) ∨
    (t.amount = none ∧ e.transactions_database.contains_key t.transaction_id = false ∧
      e.handle_withdrawals t = (e, some (.InvalidLeger t.transaction_id))) ∨
    (∃ v c2, t.amount = some v ∧
      e.transactions_database.contains_key t.transaction_id = false ∧
      ((alistGet t.t_client_id e.clients).getD ClientAccount.new).withdrawal v = .ok c2 ∧
      e.handle_withdrawals t =
        ({ e with clients := alistInsert t.t_client_id c2 e.clients }, none)) ∨
    (∃ v err, t.amount = some v ∧
      e.transactions_database.contains_key t.transaction_id = false ∧
      ((alistGet t.t_client_id e.clients).getD ClientAccount.new).withdrawal v = .error err ∧
      e.handle_withdrawals t =
        ({ e with
            clients := alistInsert t.t_client_id
              ((alistGet t.t_client_id e.clients).getD ClientAccount.new) e.clients },
          some (.ClientAccountError err))) := by
  unfold PaymentsEngine.handle_withdrawals
  by_cases hk : e.transactions_database.contains_key t.transaction_id = true
  · rw [if_pos hk]
    exact Or.inl ⟨hk, rfl⟩
  · rw [if_neg hk]
    cases ham : t.amount with
    | none => exact Or.inr (Or.inl ⟨rfl, by simpa using hk, rfl⟩)
    | some v =>
      cases hw : ((alistGet t.t_client_id e.clients).getD ClientAccount.new).withdrawal v with
      | ok c2 =>
        refine Or.inr (Or.inr (Or.inl ⟨v, c2, rfl, by simpa using hk, hw, ?_⟩))
        simp [hw]
      | error err =>
        refine Or.inr (Or.inr (Or.inr ⟨v, err, rfl, by simpa using hk, hw, ?_⟩))
        simp [hw]

/-- Shape of a successful handle_dispute. -/
lemma handle_dispute_ok (e e2 : PaymentsEngine) (t : Transaction)
    (h : e.handle_dispute t = (e2, none)) :
    e.disputes.contains t.transaction_id = false ∧
    ∃ c amt c2, alistGet t.t_client_id e.clients = some c ∧
      e.transactions_database.get t.transaction_id = some (t.t_client_id, amt) ∧
      c.dispute amt = .ok c2 ∧
      e2 = { e with
              clients := alistInsert t.t_client_id c2 e.clients,
              disputes := disputesInsert t.transaction_id e.disputes } := by
  unfold PaymentsEngine.handle_dispute at h
  by_cases hc : e.disputes.contains t.transaction_id = true
  · rw [if_pos hc] at h
    simp at h
  · rw [if_neg hc] at h
    refine ⟨by simpa using hc, ?_⟩
    rcases htwa_spec e t.t_client_id t.transaction_id (fun c a => c.dispute a) with
      ⟨err, heq⟩ | ⟨c, amt, c2, hget, hdb, hact, heq⟩
    · rw [heq] at h
      simp at h
    · rw [heq] at h
      refine ⟨c, amt, c2, hget, hdb, hact, ?_⟩
      exact (congrArg Prod.fst h).symm

/-- Shape of a successful handle_resolve. -/
lemma handle_resolve_ok (e e2 : PaymentsEngine) (t : Transaction)
    (h : e.handle_resolve t = (e2, none)) :
    e.disputes.contains t.transaction_id = true ∧
    ∃ c amt c2, alistGet t.t_client_id e.clients = some c ∧
      e.transactions_database.get t.transaction_id = some (t.t_client_id, amt) ∧
      c.resolve amt = .ok c2 ∧
      e2 = { e with
              clients := alistInsert t.t_client_id c2 e.clients,
              disputes := disputesRemove t.transaction_id e.disputes } := by
  unfold PaymentsEngine.handle_resolve at h
  by_cases hc : e.disputes.contains t.transaction_id = true
  · rw [if_neg (by rw [hc]; simp)] at h
    refine ⟨hc, ?_⟩
    rcases htwa_spec e t.t_client_id t.transaction_id (fun c a => c.resolve a) with
      ⟨err, heq⟩ | ⟨c, amt, c2, hget, hdb, hact, heq⟩
    · rw [heq] at h
      simp at h
    · rw [heq] at h
      refine ⟨c, amt, c2, hget, hdb, hact, ?_⟩
      exact (congrArg Prod.fst h).symm
  · rw [if_pos (by rw [Bool.eq_false_iff.mpr hc]; rfl)] at h
    simp at h

/-- Shape of a successful handle_chargeback. -/
lemma handle_chargeback_ok (e e2 : PaymentsEngine) (t : Transaction)
    (h : e.handle_chargeback t = (e2, none)) :
    e.disputes.contains t.transaction_id = true ∧
    ∃ c amt c2, alistGet t.t_client_id e.clients = some c ∧
      e.transactions_database.get t.transaction_id = some (t.t_client_id, amt) ∧
      c.chargeback amt = .ok c2 ∧
      e2 = { e with
              clients := alistInsert t.t_client_id c2 e.clients,
              disputes := disputesRemove t.transaction_id e.disputes } := by
  unfold PaymentsEngine.handle_chargeback at h
  by_cases hc : e.disputes.contains t.transaction_id = true
  · rw [if_neg (by rw [hc]; simp)] at h
    refine ⟨hc, ?_⟩
    rcases htwa_spec e t.t_client_id t.transaction_id (fun c a => c.chargeback a) with
      ⟨err, heq⟩ | ⟨c, amt, c2, hget, hdb, hact, heq⟩
    · rw [heq] at h
      simp at h
    · rw [heq] at h
      refine ⟨c, amt, c2, hget, hdb, hact, ?_⟩
      exact (congrArg Prod.fst h).symm
  · rw [if_pos (by rw [Bool.eq_false_iff.mpr hc]; rfl)] at h
    simp at h

lemma db_get_insert (db : TransactionsDatabase) (j k : TransactionId) (p : ClientId × Amount) :
    (db.insert k p).get j = if j = k then some p else db.get j := by
  unfold TransactionsDatabase.insert TransactionsDatabase.get
  exact alistGet_insert j k p db.transactions

/-- The cross-structure engine invariant: every disputed id has a stored
record, and every stored amount is non-negative. -/
def EngineInv (e : PaymentsEngine) : Prop :=
  (∀ tid, tid ∈ e.disputes → ((e.transactions_database.get tid)).isSome = true) ∧
  (∀ tid owner amt, e.transactions_database.get tid = some (owner, amt) → 0 ≤ amt)

lemma engineInv_new : EngineInv PaymentsEngine.new := by
  constructor
  · intro tid htid
    simp [PaymentsEngine.new] at htid
  · intro tid owner amt hget
    simp [PaymentsEngine.new, TransactionsDatabase.new, TransactionsDatabase.get,
      alistGet] at hget

lemma engineInv_step (e : PaymentsEngine) (t : Transaction) (hinv : EngineInv e) :
    EngineInv (e.handle_transaction t).1 := by
  obtain ⟨hd, ha⟩ := hinv
  unfold PaymentsEngine.handle_transaction
  cases t.t_type
  case Deposit =>
    rcases handle_deposit_spec e t with ⟨_, heq⟩ | ⟨_, _, heq⟩ |
        ⟨v, c2, ham, hnk, hok, heq⟩ | ⟨v, err, ham, hnk, herr, heq⟩ <;> rw [heq] <;> dsimp only
    · exact ⟨hd, ha⟩
    · exact ⟨hd, ha⟩
    · constructor
      · intro tid htid
        rw [db_get_insert]
        by_cases h2 : tid = t.transaction_id
        · rw [if_pos h2]
          rfl
        · rw [if_neg h2]
          exact hd tid htid
      · intro tid owner amt hget
        rw [db_get_insert] at hget
        by_cases h2 : tid = t.transaction_id
        · rw [if_pos h2] at hget
          injection hget with h3
          have hv : v = amt := congrArg Prod.snd h3
          exact hv ▸ deposit_ok_nonneg hok
        · rw [if_neg h2] at hget
          exact ha tid owner amt hget
    · exact ⟨hd, ha⟩
  case Withdrawal =>
    rcases handle_withdrawals_spec e t with ⟨_, heq⟩ | ⟨_, _, heq⟩ |
        ⟨v, c2, ham, hnk, hok, heq⟩ | ⟨v, err, ham, hnk, herr, heq⟩ <;> rw [heq] <;> dsimp only <;>
      exact ⟨hd, ha⟩
  case Dispute =>
    rcases hres : e.handle_dispute t with ⟨e2, r⟩
    cases r with
    | some err =>
      have hstate := handle_dispute_err e t (by rw [hres]; rfl)
      rw [hres] at hstate
      dsimp only at hstate ⊢
      rw [hstate]
      exact ⟨hd, ha⟩
    | none =>
      obtain ⟨hcont, c, amt, c2, hget, hdb, hok, he2⟩ := handle_dispute_ok e e2 t hres
      dsimp only
      subst he2
      constructor
      · intro tid htid
        dsimp only at htid ⊢
        rw [mem_disputesInsert] at htid
        rcases htid with rfl | htid
        · rw [hdb]
          rfl
        · exact hd tid htid
      · intro tid owner amt2 hget2
        exact ha tid owner amt2 hget2
  case Resolve =>
    rcases hres : e.handle_resolve t with ⟨e2, r⟩
    cases r with
    | some err =>
      have hstate := handle_resolve_err e t (by rw [hres]; rfl)
      rw [hres] at hstate
      dsimp only at hstate ⊢
      rw [hstate]
      exact ⟨hd, ha⟩
    | none =>
      obtain ⟨hcont, c, amt, c2, hget, hdb, hok, he2⟩ := handle_resolve_ok e e2 t hres
      dsimp only
      subst he2
      constructor
      · intro tid htid
        dsimp only at htid ⊢
        rw [mem_disputesRemove] at htid
        exact hd tid htid.1
      · intro tid owner amt2 hget2
        exact ha tid owner amt2 hget2
  case Chargeback =>
    rcases hres : e.handle_chargeback t with ⟨e2, r⟩
    cases r with
    | some err =>
      have hstate := handle_chargeback_err e t (by rw [hres]; rfl)
      rw [hres] at hstate
      dsimp only at hstate ⊢
      rw [hstate]
      exact ⟨hd, ha⟩
    | none =>
      obtain ⟨hcont, c, amt, c2, hget, hdb, hok, he2⟩ := handle_chargeback_ok e e2 t hres
      dsimp only
      subst he2
      constructor
      · intro tid htid
        dsimp only at htid ⊢
        rw [mem_disputesRemove] at htid
        exact hd tid htid.1
      · intro tid owner amt2 hget2
        exact ha tid owner amt2 hget2

lemma engineInv_foldl (ts : List Transaction) (e : PaymentsEngine) (he : EngineInv e) :
    EngineInv (ts.foldl (fun s u => (s.handle_transaction u).1) e) := by
  induction ts generalizing e with
  | nil => simpa using he
  | cons t rest ih => simpa using ih _ (engineInv_step e t he)

lemma engineInv_run (ts : List Transaction) : EngineInv (runEngine ts) :=
  engineInv_foldl ts PaymentsEngine.new engineInv_new

lemma contains_key_eq_isSome (db : TransactionsDatabase) (tid : TransactionId) :
    db.contains_key tid = ((db.get tid)).isSome := rfl

/-- State reached after a chargeback of tid: the store maps tid to an
owner whose account exists and is locked, and tid is not under dispute.
This is the inductive fact behind the terminality of chargeback. -/
def lockedOutAt (e : PaymentsEngine) (tid : TransactionId) : Prop :=
  (∃ owner amt c, e.transactions_database.get tid = some (owner, amt) ∧
    alistGet owner e.clients = some c ∧ c.locked = true) ∧
  tid ∉ e.disputes

lemma lockedOutAt_step (e : PaymentsEngine) (t : Transaction) (tid : TransactionId)
    (h : lockedOutAt e tid) : lockedOutAt (e.handle_transaction t).1 tid := by
  obtain ⟨⟨owner, amt0, cO, hdb0, hcO, hlock⟩, hnd⟩ := h
  unfold PaymentsEngine.handle_transaction
  cases t.t_type
  case Deposit =>
    rcases handle_deposit_spec e t with ⟨_, heq⟩ | ⟨_, _, heq⟩ |
        ⟨v, c2, ham, hnk, hok, heq⟩ | ⟨v, err, ham, hnk, herr, heq⟩ <;> rw [heq] <;> dsimp only
    · exact ⟨⟨owner, amt0, cO, hdb0, hcO, hlock⟩, hnd⟩
    · exact ⟨⟨owner, amt0, cO, hdb0, hcO, hlock⟩, hnd⟩
    · have hne : t.t_client_id ≠ owner := by
        intro hcc
        subst hcc
        rw [hcO] at hok
        rw [Option.getD_some] at hok
        have := (deposit_ok_locked hok).1
        rw [hlock] at this
        simp at this
      refine ⟨⟨owner, amt0, cO, ?_, ?_, hlock⟩, hnd⟩
      · rw [db_get_insert]
        rw [if_neg ?_]
        · exact hdb0
        · intro h2
          subst h2
          rw [contains_key_eq_isSome, hdb0] at hnk
          simp at hnk
      · rw [alistGet_insert_ne owner t.t_client_id c2 e.clients (Ne.symm hne)]
        exact hcO
    · refine ⟨⟨owner, amt0, cO, hdb0, ?_, hlock⟩, hnd⟩
      by_cases hcc : owner = t.t_client_id
      · subst hcc
        rw [hcO, Option.getD_some]
        exact alistGet_insert_self t.t_client_id cO e.clients
      · rw [alistGet_insert_ne owner t.t_client_id _ e.clients hcc]
        exact hcO
  case Withdrawal =>
    rcases handle_withdrawals_spec e t with ⟨_, heq⟩ | ⟨_, _, heq⟩ |
        ⟨v, c2, ham, hnk, hok, heq⟩ | ⟨v, err, ham, hnk, herr, heq⟩ <;> rw [heq] <;> dsimp only
    · exact ⟨⟨owner, amt0, cO, hdb0, hcO, hlock⟩, hnd⟩
    · exact ⟨⟨owner, amt0, cO, hdb0, hcO, hlock⟩, hnd⟩
    · have hne : t.t_client_id ≠ owner := by
        intro hcc
        subst hcc
        rw [hcO] at hok
        rw [Option.getD_some] at hok
        have := (withdrawal_ok_locked hok).1
        rw [hlock] at this
        simp at this
      refine ⟨⟨owner, amt0, cO, hdb0, ?_, hlock⟩, hnd⟩
      rw [alistGet_insert_ne owner t.t_client_id c2 e.clients (Ne.symm hne)]
      exact hcO
    · refine ⟨⟨owner, amt0, cO, hdb0, ?_, hlock⟩, hnd⟩
      by_cases hcc : owner = t.t_client_id
      · subst hcc
        rw [hcO, Option.getD_some]
        exact alistGet_insert_self t.t_client_id cO e.clients
      · rw [alistGet_insert_ne owner t.t_client_id _ e.clients hcc]
        exact hcO
  case Dispute =>
    rcases hres : e.handle_dispute t with ⟨e2, r⟩
    cases r with
    | some err =>
      have hstate := handle_dispute_err e t (by rw [hres]; rfl)
      rw [hres] at hstate
      dsimp only at hstate ⊢
      rw [hstate]
      exact ⟨⟨owner, amt0, cO, hdb0, hcO, hlock⟩, hnd⟩
    | none =>
      obtain ⟨hcont, c, amt, c2, hget, hdb, hok, he2⟩ := handle_dispute_ok e e2 t hres
      dsimp only
      subst he2
      have hne : t.t_client_id ≠ owner := by
        intro hcc
        rw [← hcc] at hcO
        rw [hget] at hcO
        injection hcO with h3
        have := (dispute_ok_locked hok).1
        rw [h3, hlock] at this
        simp at this
      have htid_ne : tid ≠ t.transaction_id := by
        intro h2
        subst h2
        rw [hdb0] at hdb
        injection hdb with h3
        exact hne (congrArg Prod.fst h3).symm
      refine ⟨⟨owner, amt0, cO, hdb0, ?_, hlock⟩, ?_⟩
      · rw [alistGet_insert_ne owner t.t_client_id c2 e.clients (Ne.symm hne)]
        exact hcO
      · dsimp only
        rw [mem_disputesInsert]
        rintro (h2 | h2)
        · exact htid_ne h2
        · exact hnd h2
  case Resolve =>
    rcases hres : e.handle_resolve t with ⟨e2, r⟩
    cases r with
    | some err =>
      have hstate := handle_resolve_err e t (by rw [hres]; rfl)
      rw [hres] at hstate
      dsimp only at hstate ⊢
      rw [hstate]
      exact ⟨⟨owner, amt0, cO, hdb0, hcO, hlock⟩, hnd⟩
    | none =>
      obtain ⟨hcont, c, amt, c2, hget, hdb, hok, he2⟩ := handle_resolve_ok e e2 t hres
      dsimp only
      subst he2
      have hne : t.t_client_id ≠ owner := by
        intro hcc
        rw [← hcc] at hcO
        rw [hget] at hcO
        injection hcO with h3
        have := (resolve_ok_locked hok).1
        rw [h3, hlock] at this
        simp at this
      refine ⟨⟨owner, amt0, cO, hdb0, ?_, hlock⟩, ?_⟩
      · rw [alistGet_insert_ne owner t.t_client_id c2 e.clients (Ne.symm hne)]
        exact hcO
      · dsimp only
        rw [mem_disputesRemove]
        rintro ⟨h2, -⟩
        exact hnd h2
  case Chargeback =>
    rcases hres : e.handle_chargeback t with ⟨e2, r⟩
    cases r with
    | some err =>
      have hstate := handle_chargeback_err e t (by rw [hres]; rfl)
      rw [hres] at hstate
      dsimp only at hstate ⊢
      rw [hstate]
      exact ⟨⟨owner, amt0, cO, hdb0, hcO, hlock⟩, hnd⟩
    | none =>
      obtain ⟨hcont, c, amt, c2, hget, hdb, hok, he2⟩ := handle_chargeback_ok e e2 t hres
      dsimp only
      subst he2
      by_cases hcc : owner = t.t_client_id
      · subst hcc
        refine ⟨⟨t.t_client_id, amt0, c2, hdb0, ?_, chargeback_ok_locked hok⟩, ?_⟩
        · exact alistGet_insert_self t.t_client_id c2 e.clients
        · dsimp only
          rw [mem_disputesRemove]
          rintro ⟨h2, -⟩
          exact hnd h2
      · refine ⟨⟨owner, amt0, cO, hdb0, ?_, hlock⟩, ?_⟩
        · rw [alistGet_insert_ne owner t.t_client_id c2 e.clients hcc]
          exact hcO
        · dsimp only
          rw [mem_disputesRemove]
          rintro ⟨h2, -⟩
          exact hnd h2

lemma lockedOutAt_foldl (ts : List Transaction) (e : PaymentsEngine) (tid : TransactionId)
    (h : lockedOutAt e tid) :
    lockedOutAt (ts.foldl (fun s u => (s.handle_transaction u).1) e) tid := by
  induction ts generalizing e with
  | nil => simpa using h
  | cons t rest ih => simpa using ih _ (lockedOutAt_step e t tid h)

lemma chargeback_ok_lockedOut (e e2 : PaymentsEngine) (t : Transaction)
    (h : e.handle_chargeback t = (e2, none)) : lockedOutAt e2 t.transaction_id := by
  obtain ⟨hcont, c, amt, c2, hget, hdb, hok, he2⟩ := handle_chargeback_ok e e2 t h
  subst he2
  refine ⟨⟨t.t_client_id, amt, c2, hdb, ?_, chargeback_ok_locked hok⟩, ?_⟩
  · exact alistGet_insert_self t.t_client_id c2 e.clients
  · dsimp only
    rw [mem_disputesRemove]
    rintro ⟨-, h2⟩
    exact h2 rfl

lemma lockedOutAt_resolve_rejected (e : PaymentsEngine) (t : Transaction)
    (h : lockedOutAt e t.transaction_id) :
    e.handle_resolve t = (e, some (.TransactionNotDisputed t.transaction_id)) := by
  obtain ⟨-, hnd⟩ := h
  have hc : e.disputes.contains t.transaction_id = false := by simpa using hnd
  unfold PaymentsEngine.handle_resolve
  rw [if_pos (by rw [hc]; rfl)]

lemma lockedOutAt_chargeback_rejected (e : PaymentsEngine) (t : Transaction)
    (h : lockedOutAt e t.transaction_id) :
    e.handle_chargeback t = (e, some (.TransactionNotDisputed t.transaction_id)) := by
  obtain ⟨-, hnd⟩ := h
  have hc : e.disputes.contains t.transaction_id = false := by simpa using hnd
  unfold PaymentsEngine.handle_chargeback
  rw [if_pos (by rw [hc]; rfl)]

lemma lockedOutAt_dispute_rejected (e : PaymentsEngine) (t : Transaction)
    (h : lockedOutAt e t.transaction_id) :
    ((e.handle_dispute t).2).isSome = true := by
  obtain ⟨⟨owner, amt0, cO, hdb0, hcO, hlock⟩, hnd⟩ := h
  rcases hres : e.handle_dispute t with ⟨e2, r⟩
  cases r with
  | some err => rfl
  | none =>
    exfalso
    obtain ⟨hcont, c, amt, c2, hget, hdb, hok, he2⟩ := handle_dispute_ok e e2 t hres
    rw [hdb0] at hdb
    injection hdb with h3
    have howner : owner = t.t_client_id := congrArg Prod.fst h3
    rw [howner, hget] at hcO
    injection hcO with h4
    have := (dispute_ok_locked hok).1
    rw [h4, hlock] at this
    simp at this

/-- Full classification of a dispute that targets a charged-back id: it
mutates nothing and is rejected with ClientNotFound, ClientAccountError
Locked (the owner itself retrying: the account is frozen) or
NotClientOwnedTransaction — the dispute path never produces
TransactionNotDisputed, and TransactionNotFound is impossible because the
stored record of the id is retained. -/
lemma lockedOutAt_dispute_classified (e : PaymentsEngine) (t : Transaction)
    (h : lockedOutAt e t.transaction_id) :
    (e.handle_dispute t).1 = e ∧
    ((e.handle_dispute t).2 = some .ClientNotFound ∨
      (e.handle_dispute t).2 = some (.ClientAccountError .Locked) ∨
      (e.handle_dispute t).2 =
        some (.NotClientOwnedTransaction t.transaction_id t.t_client_id)) := by
  obtain ⟨⟨owner, amt0, cO, hdb0, hcO, hlock⟩, hnd⟩ := h
  have hc : e.disputes.contains t.transaction_id = false := by simpa using hnd
  have h1 : ∃ err, (err = EngineError.ClientNotFound ∨
      err = EngineError.ClientAccountError .Locked ∨
      err = EngineError.NotClientOwnedTransaction t.transaction_id t.t_client_id) ∧
      e.handle_transaction_without_amount t.t_client_id t.transaction_id
        (fun c a => c.dispute a) = (e, some err) := by
    unfold PaymentsEngine.handle_transaction_without_amount
    cases hget : alistGet t.t_client_id e.clients with
    | none => exact ⟨_, Or.inl rfl, rfl⟩
    | some c =>
      by_cases hco : t.t_client_id = owner
      · have hceq : c = cO := by
          rw [hco] at hget
          rw [hget] at hcO
          injection hcO
        have hdisp : c.dispute amt0 = .error .Locked := by
          unfold ClientAccount.dispute
          rw [hceq, if_pos hlock]
        refine ⟨_, Or.inr (Or.inl rfl), ?_⟩
        simp [hdb0, hco, hdisp]
      · refine ⟨_, Or.inr (Or.inr rfl), ?_⟩
        simp [hdb0, hco]
  obtain ⟨err, herrcase, h1⟩ := h1
  unfold PaymentsEngine.handle_dispute
  rw [if_neg (by rw [hc]; simp), h1]
  rcases herrcase with rfl | rfl | rfl
  · exact ⟨rfl, Or.inl rfl⟩
  · exact ⟨rfl, Or.inr (Or.inl rfl)⟩
  · exact ⟨rfl, Or.inr (Or.inr rfl)⟩

/-- Claim C1: for every ClientAccount reachable from a fresh account by any
sequence of the five operations deposit, withdrawal, dispute, resolve,
chargeback — with any amounts, only successful applications mutating the
account — the equation total = available + held holds after every
operation (every prefix of the sequence is itself such a sequence). -/
theorem C1_total_eq_available_plus_held (ops : List (AccountOp × Amount)) :
    (runAccountOps ops).total = (runAccountOps ops).available + (runAccountOps ops).held :=
  foldl_applyAccountOp_balance ops ClientAccount.new (by simp [ClientAccount.new])

/-- Claim C2 (code bug): on an unlocked account with available = 1,
withdrawing exactly 1 — an amount equal to the available balance, which
the claim, the spec and the source comment next to the comparison say
must succeed — is rejected with InsufficientBalance, because the code
tests available > amount instead of available >= amount. -/
theorem C2_exact_balance_withdrawal_rejected :
    (ClientAccount.mk 1 0 1 false).withdrawal 1 = .error .InsufficientBalance ∧
    ¬ (1 : Amount) < 1 := by
  constructor
  · norm_num [ClientAccount.withdrawal]
  · norm_num

/-- Claim C3 counterexample: a deposit of a negative amount for a fresh
client is rejected with NegativeAmount, yet the engine state is not the
pre-call state: entry().or_insert already created a default account for
client 1, and that account stays in the ledger (and in the report). -/
theorem C3_counterexample :
    (PaymentsEngine.new.handle_transaction ⟨.Deposit, 1, 1, some (-1)⟩).2 =
      some (.ClientAccountError .NegativeAmount) ∧
    (PaymentsEngine.new.handle_transaction ⟨.Deposit, 1, 1, some (-1)⟩).1 ≠
      PaymentsEngine.new ∧
    alistGet 1 (PaymentsEngine.new.handle_transaction ⟨.Deposit, 1, 1, some (-1)⟩).1.clients =
      some ClientAccount.new := by
  norm_num [runEngine, PaymentsEngine.handle_transaction, PaymentsEngine.handle_deposit,
    PaymentsEngine.handle_withdrawals, PaymentsEngine.handle_dispute,
    PaymentsEngine.handle_resolve, PaymentsEngine.handle_chargeback,
    PaymentsEngine.handle_transaction_without_amount, PaymentsEngine.new,
    TransactionsDatabase.new, TransactionsDatabase.insert, TransactionsDatabase.get,
    TransactionsDatabase.contains_key, ClientAccount.new, ClientAccount.deposit,
    ClientAccount.withdrawal, ClientAccount.dispute, ClientAccount.resolve,
    ClientAccount.chargeback, alistGet, alistInsert, disputesInsert, disputesRemove]

/-- Claim C3 amended: when a handler returns an error, the transaction
store, the dispute set and every pre-existing account are exactly as
before the call; the only possible mutation is that a rejected deposit or
withdrawal for a previously unknown client leaves behind the freshly
created default (all-zero, unlocked) account for that client, which then
shows up in the final report. -/
theorem C3_amended_error_mutation (e : PaymentsEngine) (t : Transaction) (cid : ClientId)
    (herr : ((e.handle_transaction t).2).isSome = true) :
    (e.handle_transaction t).1.transactions_database = e.transactions_database ∧
    (e.handle_transaction t).1.disputes = e.disputes ∧
    (alistGet cid (e.handle_transaction t).1.clients = alistGet cid e.clients ∨
      (alistGet cid e.clients = none ∧ cid = t.t_client_id ∧
        alistGet cid (e.handle_transaction t).1.clients = some ClientAccount.new)) := by
  unfold PaymentsEngine.handle_transaction at herr ⊢
  revert herr
  cases htt : t.t_type <;> intro herr <;> dsimp only at herr ⊢
  case Deposit =>
    rcases handle_deposit_spec e t with ⟨_, heq⟩ | ⟨_, _, heq⟩ |
        ⟨v, c2, ham, hnk, hok, heq⟩ | ⟨v, err, ham, hnk, herr2, heq⟩ <;>
      rw [heq] at herr ⊢ <;> dsimp only at herr ⊢
    · exact ⟨rfl, rfl, Or.inl rfl⟩
    · exact ⟨rfl, rfl, Or.inl rfl⟩
    · simp at herr
    · refine ⟨rfl, rfl, ?_⟩
      by_cases hcid : cid = t.t_client_id
      · subst hcid
        cases hget : alistGet t.t_client_id e.clients with
        | none =>
          refine Or.inr ⟨rfl, rfl, ?_⟩
          rw [Option.getD_none]
          exact alistGet_insert_self t.t_client_id ClientAccount.new e.clients
        | some c =>
          refine Or.inl ?_
          rw [Option.getD_some]
          exact alistGet_insert_self t.t_client_id c e.clients
      · exact Or.inl (alistGet_insert_ne cid t.t_client_id _ e.clients hcid)
  case Withdrawal =>
    rcases handle_withdrawals_spec e t with ⟨_, heq⟩ | ⟨_, _, heq⟩ |
        ⟨v, c2, ham, hnk, hok, heq⟩ | ⟨v, err, ham, hnk, herr2, heq⟩ <;>
      rw [heq] at herr ⊢ <;> dsimp only at herr ⊢
    · exact ⟨rfl, rfl, Or.inl rfl⟩
    · exact ⟨rfl, rfl, Or.inl rfl⟩
    · simp at herr
    · refine ⟨rfl, rfl, ?_⟩
      by_cases hcid : cid = t.t_client_id
      · subst hcid
        cases hget : alistGet t.t_client_id e.clients with
        | none =>
          refine Or.inr ⟨rfl, rfl, ?_⟩
          rw [Option.getD_none]
          exact alistGet_insert_self t.t_client_id ClientAccount.new e.clients
        | some c =>
          refine Or.inl ?_
          rw [Option.getD_some]
          exact alistGet_insert_self t.t_client_id c e.clients
      · exact Or.inl (alistGet_insert_ne cid t.t_client_id _ e.clients hcid)
  case Dispute =>
    have hstate := handle_dispute_err e t herr
    rw [hstate]
    exact ⟨rfl, rfl, Or.inl rfl⟩
  case Resolve =>
    have hstate := handle_resolve_err e t herr
    rw [hstate]
    exact ⟨rfl, rfl, Or.inl rfl⟩
  case Chargeback =>
    have hstate := handle_chargeback_err e t herr
    rw [hstate]
    exact ⟨rfl, rfl, Or.inl rfl⟩

/-- Witness for C3 amended: a dispute from an unknown client on a fresh
engine is rejected and mutates nothing. -/
theorem C3_amended_error_mutation_witness :
    (PaymentsEngine.new.handle_transaction ⟨.Dispute, 2, 99, none⟩).1.transactions_database =
      PaymentsEngine.new.transactions_database ∧
    (PaymentsEngine.new.handle_transaction ⟨.Dispute, 2, 99, none⟩).1.disputes =
      PaymentsEngine.new.disputes ∧
    (alistGet 2 (PaymentsEngine.new.handle_transaction ⟨.Dispute, 2, 99, none⟩).1.clients =
        alistGet 2 PaymentsEngine.new.clients ∨
      (alistGet 2 PaymentsEngine.new.clients = none ∧
        2 = (⟨.Dispute, 2, 99, none⟩ : Transaction).t_client_id ∧
        alistGet 2 (PaymentsEngine.new.handle_transaction ⟨.Dispute, 2, 99, none⟩).1.clients =
          some ClientAccount.new)) :=
  C3_amended_error_mutation PaymentsEngine.new ⟨.Dispute, 2, 99, none⟩ 2 (by
    norm_num [PaymentsEngine.handle_transaction, PaymentsEngine.handle_dispute,
      PaymentsEngine.handle_transaction_without_amount, PaymentsEngine.new,
      TransactionsDatabase.new, TransactionsDatabase.get, alistGet])

/-- Claim C4 counterexample: disputing tx 99, never deposited, from client
2 which never transacted, is rejected with ClientNotFound — not with
TransactionNotFound as the claim states — because the client-account
lookup is decided before the store lookup; no account is created. -/
theorem C4_counterexample :
    (PaymentsEngine.new.handle_dispute ⟨.Dispute, 2, 99, none⟩).2 = some .ClientNotFound ∧
    (PaymentsEngine.new.handle_dispute ⟨.Dispute, 2, 99, none⟩).2 ≠
      some (.TransactionNotFound 99) ∧
    (PaymentsEngine.new.handle_dispute ⟨.Dispute, 2, 99, none⟩).1 = PaymentsEngine.new := by
  refine ⟨?_, ?_, ?_⟩
  · norm_num [PaymentsEngine.handle_dispute, PaymentsEngine.handle_transaction_without_amount,
      PaymentsEngine.new, TransactionsDatabase.new, TransactionsDatabase.get, alistGet]
  · norm_num [PaymentsEngine.handle_dispute, PaymentsEngine.handle_transaction_without_amount,
      PaymentsEngine.new, TransactionsDatabase.new, TransactionsDatabase.get, alistGet]
    decide
  · norm_num [PaymentsEngine.handle_dispute, PaymentsEngine.handle_transaction_without_amount,
      PaymentsEngine.new, TransactionsDatabase.new, TransactionsDatabase.get, alistGet]

/-- Claim C4 amended: a dispute whose transaction id is neither tracked
nor stored mutates nothing and is rejected — with ClientNotFound when the
requesting client has no account (the client lookup is decided before the
store lookup), and with TransactionNotFound when it has one; in neither
case is an account created for the client. -/
theorem C4_amended_dispute_unknown_id (e : PaymentsEngine) (t : Transaction)
    (hnd : e.disputes.contains t.transaction_id = false)
    (hns : e.transactions_database.get t.transaction_id = none) :
    e.handle_dispute t =
      (e, some (match alistGet t.t_client_id e.clients with
        | none => EngineError.ClientNotFound
        | some _ => EngineError.TransactionNotFound t.transaction_id)) := by
  have h1 : e.handle_transaction_without_amount t.t_client_id t.transaction_id
      (fun c a => c.dispute a) =
      (e, some (match alistGet t.t_client_id e.clients with
        | none => EngineError.ClientNotFound
        | some _ => EngineError.TransactionNotFound t.transaction_id)) := by
    unfold PaymentsEngine.handle_transaction_without_amount
    cases hget : alistGet t.t_client_id e.clients with
    | none => simp [hget]
    | some c => simp [hget, hns]
  unfold PaymentsEngine.handle_dispute
  rw [if_neg (by rw [hnd]; simp), h1]

/-- Witness for C4 amended on the fresh engine. -/
theorem C4_amended_dispute_unknown_id_witness :
    PaymentsEngine.new.handle_dispute ⟨.Dispute, 2, 99, none⟩ =
      (PaymentsEngine.new, some (match alistGet 2 PaymentsEngine.new.clients with
        | none => EngineError.ClientNotFound
        | some _ => EngineError.TransactionNotFound 99)) :=
  C4_amended_dispute_unknown_id PaymentsEngine.new ⟨.Dispute, 2, 99, none⟩ rfl rfl

/-- Claim C5 counterexample: deposit tx 1, dispute it, then a chargeback
of tx 1 succeeds; an immediately repeated dispute of tx 1 is rejected,
but with ClientAccountError Locked (the account was frozen), not with
TransactionNotDisputed as the claim states for every later dispute. -/
theorem C5_counterexample :
    ((runEngine [⟨.Deposit, 1, 1, some 1⟩, ⟨.Dispute, 1, 1, none⟩]).handle_chargeback
        ⟨.Chargeback, 1, 1, none⟩).2 = none ∧
    (((runEngine [⟨.Deposit, 1, 1, some 1⟩, ⟨.Dispute, 1, 1, none⟩]).handle_chargeback
        ⟨.Chargeback, 1, 1, none⟩).1.handle_dispute ⟨.Dispute, 1, 1, none⟩).2 =
      some (.ClientAccountError .Locked) ∧
    some (EngineError.ClientAccountError .Locked) ≠
      some (EngineError.TransactionNotDisputed 1) := by
  refine ⟨?_, ?_, by decide⟩ <;>
  norm_num [runEngine, PaymentsEngine.handle_transaction, PaymentsEngine.handle_deposit,
    PaymentsEngine.handle_withdrawals, PaymentsEngine.handle_dispute,
    PaymentsEngine.handle_resolve, PaymentsEngine.handle_chargeback,
    PaymentsEngine.handle_transaction_without_amount, PaymentsEngine.new,
    TransactionsDatabase.new, TransactionsDatabase.insert, TransactionsDatabase.get,
    TransactionsDatabase.contains_key, ClientAccount.new, ClientAccount.deposit,
    ClientAccount.withdrawal, ClientAccount.dispute, ClientAccount.resolve,
    ClientAccount.chargeback, alistGet, alistInsert, disputesInsert, disputesRemove]

/-- Claim C5 amended: chargeback is terminal for a transaction id. After a
successful chargeback of T the id is out of the dispute set and stays out
under every continuation of the stream; every later resolve or chargeback
of T is rejected with TransactionNotDisputed and changes nothing; every
later dispute of T is rejected as well and changes nothing, with
ClientNotFound, ClientAccountError Locked (the owner account stays frozen)
or NotClientOwnedTransaction — never with TransactionNotDisputed. -/
theorem C5_amended_chargeback_terminal (e e1 : PaymentsEngine) (t0 t : Transaction)
    (ts : List Transaction)
    (hcb : e.handle_chargeback t0 = (e1, none))
    (hid : t.transaction_id = t0.transaction_id) :
    t0.transaction_id ∉ (ts.foldl (fun s u => (s.handle_transaction u).1) e1).disputes ∧
    (ts.foldl (fun s u => (s.handle_transaction u).1) e1).handle_resolve t =
      (ts.foldl (fun s u => (s.handle_transaction u).1) e1,
        some (.TransactionNotDisputed t.transaction_id)) ∧
    (ts.foldl (fun s u => (s.handle_transaction u).1) e1).handle_chargeback t =
      (ts.foldl (fun s u => (s.handle_transaction u).1) e1,
        some (.TransactionNotDisputed t.transaction_id)) ∧
    ((ts.foldl (fun s u => (s.handle_transaction u).1) e1).handle_dispute t).1 =
      ts.foldl (fun s u => (s.handle_transaction u).1) e1 ∧
    (((ts.foldl (fun s u => (s.handle_transaction u).1) e1).handle_dispute t).2 =
        some .ClientNotFound ∨
      ((ts.foldl (fun s u => (s.handle_transaction u).1) e1).handle_dispute t).2 =
        some (.ClientAccountError .Locked) ∨
      ((ts.foldl (fun s u => (s.handle_transaction u).1) e1).handle_dispute t).2 =
        some (.NotClientOwnedTransaction t.transaction_id t.t_client_id)) ∧
    ((ts.foldl (fun s u => (s.handle_transaction u).1) e1).handle_dispute t).2 ≠
      some (.TransactionNotDisputed t.transaction_id) := by
  have h2 := lockedOutAt_foldl ts e1 t0.transaction_id (chargeback_ok_lockedOut e e1 t0 hcb)
  have h3 : lockedOutAt (ts.foldl (fun s u => (s.handle_transaction u).1) e1)
      t.transaction_id := by
    rw [hid]
    exact h2
  obtain ⟨hd1, hdclass⟩ := lockedOutAt_dispute_classified _ t h3
  refine ⟨h2.2, lockedOutAt_resolve_rejected _ t h3, lockedOutAt_chargeback_rejected _ t h3,
    hd1, hdclass, ?_⟩
  intro hcon
  rcases hdclass with h | h | h <;> rw [h] at hcon <;> injection hcon with h4 <;> cases h4

/-- The engine state reached by deposit(1,1,1); dispute(1,1);
chargeback(1,1): the account is emptied and frozen, the deposit record is
retained, nothing is under dispute. -/
def c5WitnessState : PaymentsEngine :=
  { clients := [(1, ClientAccount.mk 0 0 0 true)],
    transactions_database := ⟨[(1, (1, 1))]⟩,
    disputes := [] }

/-- Witness for C5 amended at a concrete run. -/
theorem C5_amended_chargeback_terminal_witness :
    (1 : TransactionId) ∉ c5WitnessState.disputes ∧
    c5WitnessState.handle_resolve ⟨.Dispute, 1, 1, none⟩ =
      (c5WitnessState, some (.TransactionNotDisputed 1)) ∧
    c5WitnessState.handle_chargeback ⟨.Dispute, 1, 1, none⟩ =
      (c5WitnessState, some (.TransactionNotDisputed 1)) ∧
    (c5WitnessState.handle_dispute ⟨.Dispute, 1, 1, none⟩).1 = c5WitnessState ∧
    ((c5WitnessState.handle_dispute ⟨.Dispute, 1, 1, none⟩).2 = some .ClientNotFound ∨
      (c5WitnessState.handle_dispute ⟨.Dispute, 1, 1, none⟩).2 =
        some (.ClientAccountError .Locked) ∨
      (c5WitnessState.handle_dispute ⟨.Dispute, 1, 1, none⟩).2 =
        some (.NotClientOwnedTransaction 1 1)) ∧
    (c5WitnessState.handle_dispute ⟨.Dispute, 1, 1, none⟩).2 ≠
      some (.TransactionNotDisputed 1) :=
  C5_amended_chargeback_terminal
    (runEngine [⟨.Deposit, 1, 1, some 1⟩, ⟨.Dispute, 1, 1, none⟩]) c5WitnessState
    ⟨.Chargeback, 1, 1, none⟩ ⟨.Dispute, 1, 1, none⟩ []
    (by
      norm_num [runEngine, PaymentsEngine.handle_transaction, PaymentsEngine.handle_deposit,
        PaymentsEngine.handle_withdrawals, PaymentsEngine.handle_dispute,
        PaymentsEngine.handle_resolve, PaymentsEngine.handle_chargeback,
        PaymentsEngine.handle_transaction_without_amount, PaymentsEngine.new,
        TransactionsDatabase.new, TransactionsDatabase.insert, TransactionsDatabase.get,
        TransactionsDatabase.contains_key, ClientAccount.new, ClientAccount.deposit,
        ClientAccount.withdrawal, ClientAccount.dispute, ClientAccount.resolve,
        ClientAccount.chargeback, alistGet, alistInsert, disputesInsert, disputesRemove,
        c5WitnessState])
    rfl

/-- Claim C6 (code bug): depositing amount 1 on a fresh account succeeds,
but then withdrawing exactly 1 is rejected with InsufficientBalance (the
strict comparison again), so available and total stay at 1 instead of
returning to the pre-deposit value 0: the round-trip does not restore the
state. -/
theorem C6_roundtrip_broken :
    ClientAccount.new.deposit 1 = .ok (ClientAccount.mk 1 0 1 false) ∧
    (ClientAccount.mk 1 0 1 false).withdrawal 1 = .error .InsufficientBalance ∧
    (ClientAccount.mk 1 0 1 false).available ≠ ClientAccount.new.available := by
  refine ⟨?_, ?_, ?_⟩
  · norm_num [ClientAccount.deposit, ClientAccount.new]
  · norm_num [ClientAccount.withdrawal]
  · norm_num [ClientAccount.new]

/-- Claim C7 counterexample: after deposit(tx 1) and withdrawal(tx 2), a
second withdrawal reusing tx id 2 is accepted (no error), although the
claim says any id used by a prior transaction — including a prior
withdrawal — is rejected with TransactionAlreadyExists. -/
theorem C7_counterexample :
    ((runEngine [⟨.Deposit, 1, 1, some 5⟩, ⟨.Withdrawal, 1, 2, some 1⟩]).handle_withdrawals
        ⟨.Withdrawal, 1, 2, some 1⟩).2 = none := by
  norm_num [runEngine, PaymentsEngine.handle_transaction, PaymentsEngine.handle_deposit,
    PaymentsEngine.handle_withdrawals, PaymentsEngine.handle_dispute,
    PaymentsEngine.handle_resolve, PaymentsEngine.handle_chargeback,
    PaymentsEngine.handle_transaction_without_amount, PaymentsEngine.new,
    TransactionsDatabase.new, TransactionsDatabase.insert, TransactionsDatabase.get,
    TransactionsDatabase.contains_key, ClientAccount.new, ClientAccount.deposit,
    ClientAccount.withdrawal, ClientAccount.dispute, ClientAccount.resolve,
    ClientAccount.chargeback, alistGet, alistInsert, disputesInsert, disputesRemove]

/-- Claim C7 amended: a withdrawal is rejected with
TransactionAlreadyExists exactly when its id is a key of the transaction
store, that is, was used by a prior deposit; the store is never written by
handle_withdrawals, so withdrawal ids are not recorded (and can never be
disputed) and reusing a withdrawal-only id is not rejected. -/
theorem C7_amended_withdrawal_duplicates (e : PaymentsEngine) (t : Transaction) :
    ((e.handle_withdrawals t).2 = some .TransactionAlreadyExists ↔
      e.transactions_database.contains_key t.transaction_id = true) ∧
    (e.handle_withdrawals t).1.transactions_database = e.transactions_database := by
  rcases handle_withdrawals_spec e t with ⟨hk, heq⟩ | ⟨ham, hk, heq⟩ |
      ⟨v, c2, ham, hk, hok, heq⟩ | ⟨v, err, ham, hk, herr, heq⟩ <;>
    rw [heq] <;> simp [hk]

/-- Witness for C7 amended at a concrete engine whose store holds id 1:
a withdrawal reusing id 1 is rejected as a duplicate, a withdrawal with
the fresh id 2 is not, and neither touches the store. -/
theorem C7_amended_withdrawal_duplicates_witness :
    (((PaymentsEngine.mk [] (TransactionsDatabase.mk [(1, (1, 5))]) []).handle_withdrawals
          ⟨.Withdrawal, 1, 1, some 1⟩).2 = some .TransactionAlreadyExists ↔
      (TransactionsDatabase.mk [(1, (1, 5))]).contains_key 1 = true) ∧
    ((PaymentsEngine.mk [] (TransactionsDatabase.mk [(1, (1, 5))]) []).handle_withdrawals
        ⟨.Withdrawal, 1, 1, some 1⟩).1.transactions_database =
      TransactionsDatabase.mk [(1, (1, 5))] :=
  C7_amended_withdrawal_duplicates
    (PaymentsEngine.mk [] (TransactionsDatabase.mk [(1, (1, 5))]) [])
    ⟨.Withdrawal, 1, 1, some 1⟩

/-- Every handler preserves every record already present in the store:
deposits only insert under ids the duplicate check proved absent, and no
other handler writes the store at all, so handling a transaction never
overwrites or removes a stored record. -/
lemma store_record_step (e : PaymentsEngine) (t : Transaction) (tid : TransactionId)
    (p : ClientId × Amount) (h : e.transactions_database.get tid = some p) :
    (e.handle_transaction t).1.transactions_database.get tid = some p := by
  unfold PaymentsEngine.handle_transaction
  cases t.t_type
  case Deposit =>
    rcases handle_deposit_spec e t with ⟨_, heq⟩ | ⟨_, _, heq⟩ |
        ⟨v, c2, ham, hnk, hok, heq⟩ | ⟨v, err, ham, hnk, herr, heq⟩ <;> rw [heq] <;> dsimp only
    · exact h
    · exact h
    · rw [db_get_insert]
      rw [if_neg ?_]
      · exact h
      · intro h2
        subst h2
        rw [contains_key_eq_isSome, h] at hnk
        simp at hnk
    · exact h
  case Withdrawal =>
    rcases handle_withdrawals_spec e t with ⟨_, heq⟩ | ⟨_, _, heq⟩ |
        ⟨v, c2, ham, hnk, hok, heq⟩ | ⟨v, err, ham, hnk, herr, heq⟩ <;> rw [heq] <;>
      dsimp only <;> exact h
  case Dispute =>
    rcases hres : e.handle_dispute t with ⟨e2, r⟩
    cases r with
    | some err =>
      have hstate := handle_dispute_err e t (by rw [hres]; rfl)
      rw [hres] at hstate
      dsimp only at hstate ⊢
      rw [hstate]
      exact h
    | none =>
      obtain ⟨hcont, c, amt, c2, hget, hdb, hok, he2⟩ := handle_dispute_ok e e2 t hres
      dsimp only
      subst he2
      exact h
  case Resolve =>
    rcases hres : e.handle_resolve t with ⟨e2, r⟩
    cases r with
    | some err =>
      have hstate := handle_resolve_err e t (by rw [hres]; rfl)
      rw [hres] at hstate
      dsimp only at hstate ⊢
      rw [hstate]
      exact h
    | none =>
      obtain ⟨hcont, c, amt, c2, hget, hdb, hok, he2⟩ := handle_resolve_ok e e2 t hres
      dsimp only
      subst he2
      exact h
  case Chargeback =>
    rcases hres : e.handle_chargeback t with ⟨e2, r⟩
    cases r with
    | some err =>
      have hstate := handle_chargeback_err e t (by rw [hres]; rfl)
      rw [hres] at hstate
      dsimp only at hstate ⊢
      rw [hstate]
      exact h
    | none =>
      obtain ⟨hcont, c, amt, c2, hget, hdb, hok, he2⟩ := handle_chargeback_ok e e2 t hres
      dsimp only
      subst he2
      exact h

/-- Run-level no-overwrite invariant: a record present in the store
survives any further sequence of handled transactions unchanged. -/
lemma store_record_foldl (ts : List Transaction) (e : PaymentsEngine)
    (tid : TransactionId) (p : ClientId × Amount)
    (h : e.transactions_database.get tid = some p) :
    (ts.foldl (fun s u => (s.handle_transaction u).1) e).transactions_database.get tid =
      some p := by
  induction ts generalizing e with
  | nil => simpa using h
  | cons t rest ih => simpa using ih _ (store_record_step e t tid p h)

/-- Claim C8 counterexample: inserting under id 1 into a store that
already holds a record for id 1 does not fail with AlreadyExists — insert
has no failure path at all — and it overwrites the stored record rather
than leaving it unchanged. -/
theorem C8_counterexample :
    (TransactionsDatabase.mk [(1, (1, 5))]).insert 1 (2, 7) =
      TransactionsDatabase.mk [(1, (2, 7))] ∧
    ((TransactionsDatabase.mk [(1, (1, 5))]).insert 1 (2, 7)).get 1 ≠
      (TransactionsDatabase.mk [(1, (1, 5))]).get 1 := by
  norm_num [TransactionsDatabase.insert, TransactionsDatabase.get, alistInsert, alistGet,
    Prod.ext_iff]

/-- Claim C8 amended: TransactionsDatabase.insert is an unconditional
insert-or-overwrite with no failure path (after insert the stored record
under the id is the new one, even if the id was present); the duplicate
rejection the claim describes lives one level up: handle_deposit rejects
TransactionAlreadyExists when the id is already a key and leaves the store
unchanged, and along engine runs a stored record is never overwritten: any
record present in the store survives every further sequence of handled
transactions unchanged. -/
theorem C8_amended_store_insert (db : TransactionsDatabase) (tid : TransactionId)
    (p : ClientId × Amount) (e : PaymentsEngine) (t : Transaction)
    (ts : List Transaction) (tid2 : TransactionId) (p2 : ClientId × Amount)
    (hk : e.transactions_database.contains_key t.transaction_id = true)
    (hrec : e.transactions_database.get tid2 = some p2) :
    (db.insert tid p).get tid = some p ∧
    e.handle_deposit t = (e, some .TransactionAlreadyExists) ∧
    (ts.foldl (fun s u => (s.handle_transaction u).1) e).transactions_database.get tid2 =
      some p2 := by
  refine ⟨?_, ?_, store_record_foldl ts e tid2 p2 hrec⟩
  · rw [db_get_insert, if_pos rfl]
  · unfold PaymentsEngine.handle_deposit
    rw [if_pos hk]

/-- Witness for C8 amended: overwrite visible after a raw insert, a
duplicate deposit rejected by the engine, and the stored record (1, 5)
under id 1 surviving a run containing a deposit that reuses id 1. -/
theorem C8_amended_store_insert_witness :
    ((TransactionsDatabase.mk [(1, (1, 5))]).insert 1 (2, 7)).get 1 = some (2, 7) ∧
    (PaymentsEngine.mk [] (TransactionsDatabase.mk [(1, (1, 5))]) []).handle_deposit
        ⟨.Deposit, 1, 1, some 5⟩ =
      (PaymentsEngine.mk [] (TransactionsDatabase.mk [(1, (1, 5))]) [],
        some .TransactionAlreadyExists) ∧
    (([⟨.Deposit, 1, 1, some 7⟩] : List Transaction).foldl
          (fun s u => (s.handle_transaction u).1)
          (PaymentsEngine.mk [] (TransactionsDatabase.mk [(1, (1, 5))]) [])
        ).transactions_database.get 1 = some (1, 5) :=
  C8_amended_store_insert (TransactionsDatabase.mk [(1, (1, 5))]) 1 (2, 7)
    (PaymentsEngine.mk [] (TransactionsDatabase.mk [(1, (1, 5))]) [])
    ⟨.Deposit, 1, 1, some 5⟩ [⟨.Deposit, 1, 1, some 7⟩] 1 (1, 5) rfl rfl

/-- Claim C9 counterexample: the decoded amount 10.55557 (five fractional
digits) is passed through the deserializer unchanged — it differs from its
4-digit rounding 10.5556 — and handle_deposit credits the account with the
unrounded value, whose product with 10^4 is not an integer, so the balance
arithmetic is not performed on a 4-digit amount. -/
theorem C9_counterexample :
    de_decimal_non_negative (some (1055557 / 100000)) = .ok (some (1055557 / 100000)) ∧
    (1055557 / 100000 : Amount) ≠ spec_round_dp4 (1055557 / 100000) ∧
    alistGet 1
        (PaymentsEngine.new.handle_deposit ⟨.Deposit, 1, 1, some (1055557 / 100000)⟩).1.clients =
      some (ClientAccount.mk (1055557 / 100000) 0 (1055557 / 100000) false) ∧
    ¬ ∃ n : Int, (1055557 / 100000 : Amount) * 10000 = (n : Rat) := by
  refine ⟨?_, ?_, ?_, ?_⟩
  · norm_num [de_decimal_non_negative]
  · norm_num [spec_round_dp4]
  · norm_num [PaymentsEngine.handle_deposit, PaymentsEngine.new, TransactionsDatabase.new,
      TransactionsDatabase.insert, TransactionsDatabase.contains_key, ClientAccount.new,
      ClientAccount.deposit, alistGet, alistInsert]
  · rintro ⟨n, hn⟩
    have h10 : (1055557 : Rat) = 10 * (n : Rat) := by
      field_simp at hn
      linarith
    have hz : (1055557 : Int) = 10 * n := by exact_mod_cast h10
    omega

/-- Claim C9 amended: no rounding is applied before ledger arithmetic —
the deserializer passes every non-negative decoded amount through
unchanged, and a deposit on a fresh engine credits the account with
exactly the decoded value; 4-digit precision exists only in the output
formatting of the report. -/
theorem C9_amended_no_rounding (v : Amount) (hv : 0 ≤ v) :
    de_decimal_non_negative (some v) = .ok (some v) ∧
    alistGet 1 (PaymentsEngine.new.handle_deposit ⟨.Deposit, 1, 1, some v⟩).1.clients =
      some (ClientAccount.mk v 0 v false) := by
  constructor
  · unfold de_decimal_non_negative
    dsimp only
    rw [if_neg (not_lt.mpr hv)]
  · unfold PaymentsEngine.handle_deposit
    rw [if_neg (by simp [PaymentsEngine.new, TransactionsDatabase.new,
      TransactionsDatabase.contains_key, alistGet])]
    dsimp only [PaymentsEngine.new]
    rw [show alistGet 1 ([] : List (ClientId × ClientAccount)) = none from rfl]
    rw [Option.getD_none]
    unfold ClientAccount.deposit ClientAccount.new
    rw [if_neg (by simp), if_neg (not_lt.mpr hv)]
    dsimp only
    rw [show alistInsert 1 (ClientAccount.mk (0 + v) 0 (0 + v) false)
        ([] : List (ClientId × ClientAccount)) =
        [(1, ClientAccount.mk (0 + v) 0 (0 + v) false)] from rfl]
    rw [show alistGet 1 [(1, ClientAccount.mk (0 + v) 0 (0 + v) false)] =
        some (ClientAccount.mk (0 + v) 0 (0 + v) false) from by simp [alistGet]]
    rw [zero_add]

/-- Witness for C9 amended at the decoded value 10.55557. -/
theorem C9_amended_no_rounding_witness :
    de_decimal_non_negative (some (1055557 / 100000)) = .ok (some (1055557 / 100000)) ∧
    alistGet 1
        (PaymentsEngine.new.handle_deposit ⟨.Deposit, 1, 1, some (1055557 / 100000)⟩).1.clients =
      some (ClientAccount.mk (1055557 / 100000) 0 (1055557 / 100000) false) :=
  C9_amended_no_rounding (1055557 / 100000) (by norm_num)

/-- Claim C10: in every engine state reachable from a fresh engine by any
sequence of handled transactions, every transaction id in the dispute set
is a key of the transaction store, and every stored record carries a
non-negative amount. -/
theorem C10_engine_invariant (ts : List Transaction) (tid : TransactionId)
    (owner : ClientId) (amt : Amount) :
    (tid ∈ (runEngine ts).disputes →
      (((runEngine ts).transactions_database.get tid)).isSome = true) ∧
    ((runEngine ts).transactions_database.get tid = some (owner, amt) → 0 ≤ amt) :=
  ⟨fun h => (engineInv_run ts).1 tid h, fun h => (engineInv_run ts).2 tid owner amt h⟩

/-- Witness for C10 on the run deposit(1,1,5); dispute(1,1). -/
theorem C10_engine_invariant_witness :
    ((runEngine [⟨.Deposit, 1, 1, some 5⟩, ⟨.Dispute, 1, 1, none⟩]).transactions_database.get
        1).isSome = true ∧
    (0 : Amount) ≤ 5 :=
  ⟨(C10_engine_invariant [⟨.Deposit, 1, 1, some 5⟩, ⟨.Dispute, 1, 1, none⟩] 1 1 5).1 (by
      norm_num [runEngine, PaymentsEngine.handle_transaction, PaymentsEngine.handle_deposit,
        PaymentsEngine.handle_dispute, PaymentsEngine.handle_transaction_without_amount,
        PaymentsEngine.new, TransactionsDatabase.new, TransactionsDatabase.insert,
        TransactionsDatabase.get, TransactionsDatabase.contains_key, ClientAccount.new,
        ClientAccount.deposit, ClientAccount.dispute, alistGet, alistInsert,
        disputesInsert]),
   (C10_engine_invariant [⟨.Deposit, 1, 1, some 5⟩, ⟨.Dispute, 1, 1, none⟩] 1 1 5).2 (by
      norm_num [runEngine, PaymentsEngine.handle_transaction, PaymentsEngine.handle_deposit,
        PaymentsEngine.handle_dispute, PaymentsEngine.handle_transaction_without_amount,
        PaymentsEngine.new, TransactionsDatabase.new, TransactionsDatabase.insert,
        TransactionsDatabase.get, TransactionsDatabase.contains_key, ClientAccount.new,
        ClientAccount.deposit, ClientAccount.dispute, alistGet, alistInsert,
        disputesInsert])⟩
